import Mathlib

/-!
Verification development for the CT-package trading core.

Shallow embedding of the decision core of the repository:

* `TradingEngine.update_market_condition` and `_update_trading_status`
  (src/trading_engine/engine.py),
* `DynamicStopLossModule` (src/trading_engine/dynamic_stop_loss.py),
* the grid, DCA, scalping and arbitrage strategy state machines
  (src/trading_engine/strategies/).

Prices, amounts and clock readings are modeled as rationals; machine state
becomes explicit record passing; engine calls that can fail transiently
(tickers, OHLCV frames, order placement) enter the pure functions as
`Option`-valued inputs, mirroring the surrounding `try`/`except` blocks.
Statistics that pandas derives from an OHLCV frame (percent changes,
standard deviation, rolling means, EMAs) are passed in as the per-frame
inputs of the functions that consume them; all decision logic downstream
of those statistics is embedded directly from the source.
-/

namespace CT

/-! ## Engine: market-condition scoring and trading-status hysteresis -/

/-- Per-symbol statistics that `update_market_condition` derives from the
24-candle OHLCV frame of one symbol before accumulating scores:
`price_change_pct` (close now vs 24h ago, in percent), `volume_change_pct`
(last volume vs rolling mean, in percent), `volatility`
(`returns.std() * 100`), and `is_bullish` (6h SMA above 12h SMA).
A `none` entry models an empty frame (the `if df.empty: continue` path). -/
structure SymbolStats where
  price_change_pct : ℚ
  volume_change_pct : ℚ
  volatility : ℚ
  is_bullish : Bool
deriving DecidableEq

/-- Python `int()` applied to a rational: truncation toward zero. -/
def pyInt (q : ℚ) : ℤ :=
  if 0 ≤ q then ⌊q⌋ else ⌈q⌉

/-- Accumulation loop of `update_market_condition`: running sums of the four
sub-scores (price momentum clamped to plus or minus 25, volume change over 5
clamped to 0..20, `max(15 - volatility, 0)`, and a 15-point trend bonus),
skipping symbols whose frame was empty. -/
def scoreAccum (data : List (Option SymbolStats)) : ℚ × ℚ × ℚ × ℚ :=
  data.foldl
    (fun acc od =>
      match od with
      | none => acc
      | some d =>
        (acc.1 + min (max d.price_change_pct (-25)) 25,
         acc.2.1 + min (max (d.volume_change_pct / 5) 0) 20,
         acc.2.2.1 + max (15 - d.volatility) 0,
         acc.2.2.2 + if d.is_bullish then 15 else 0))
    (0, 0, 0, 0)

/-- Final score computation of `update_market_condition`: average the four
accumulated sub-scores over the symbol count (the `if symbols:` guard),
normalize momentum to a 0..40 band, sum, truncate to an integer with
Python `int()`, and clamp to `[0, 100]`. -/
def computeFinalScore (data : List (Option SymbolStats)) : ℤ :=
  let acc := scoreAccum data
  let n : ℚ := data.length
  let price_momentum_score := if data.length ≠ 0 then acc.1 / n else acc.1
  let volume_score := if data.length ≠ 0 then acc.2.1 / n else acc.2.1
  let volatility_score := if data.length ≠ 0 then acc.2.2.1 / n else acc.2.2.1
  let trend_score := if data.length ≠ 0 then acc.2.2.2 / n else acc.2.2.2
  let normalized_momentum := (price_momentum_score + 25) / 50 * 40
  let final_score := normalized_momentum + volume_score + volatility_score + trend_score
  min (max (pyInt final_score) 0) 100

/-- Engine state touched by the market-condition scorer: the stored score,
the trading-active flag, and the two thresholds read once at construction. -/
structure EngineState where
  market_condition_score : ℤ
  is_trading_active : Bool
  min_market_condition_score : ℤ
  auto_resume_threshold : ℤ
deriving DecidableEq

/-- Embedding of `TradingEngine._update_trading_status`: resume when
inactive and the score reached the auto-resume threshold, suspend when
active and the score fell below the minimum, otherwise leave the flag. -/
def update_trading_status (st : EngineState) : EngineState :=
  if st.is_trading_active = false ∧ st.auto_resume_threshold ≤ st.market_condition_score then
    { st with is_trading_active := true }
  else if st.is_trading_active = true ∧ st.market_condition_score < st.min_market_condition_score then
    { st with is_trading_active := false }
  else
    st

/-- Embedding of one call to `TradingEngine.update_market_condition`.
`data` holds the per-symbol statistics for the (defaulted, hence nonempty)
symbol list. `ok = false` models the `except` path: nothing in the `try`
block mutates engine state before the single assignment of
`self.market_condition_score`, so an exception leaves the state untouched
and the method returns the previous score. On success the score is replaced
wholesale by the clamped value and `_update_trading_status` runs. -/
def update_market_condition (st : EngineState) (data : List (Option SymbolStats))
    (ok : Bool) : EngineState :=
  if ok then
    update_trading_status { st with market_condition_score := computeFinalScore data }
  else
    st

/-- Status update never touches the stored score. -/
theorem update_trading_status_score (st : EngineState) :
    (update_trading_status st).market_condition_score = st.market_condition_score := by
  unfold update_trading_status
  split
  · rfl
  · split <;> rfl

/-- Computed final score always lands in `[0, 100]`. -/
theorem computeFinalScore_in_range (data : List (Option SymbolStats)) :
    0 ≤ computeFinalScore data ∧ computeFinalScore data ≤ 100 := by
  unfold computeFinalScore
  constructor
  · exact le_min (le_max_right _ _) (by norm_num)
  · exact min_le_right _ _

/-- C1. After `update_market_condition` the stored market-condition score is
an integer in `[0, 100]`: on the success path the previous value is replaced
wholesale by the clamped computed score, on the exception path the previous
(in-range) value is kept unchanged; no partial update exists. -/
theorem market_condition_score_in_range
    (st : EngineState) (data : List (Option SymbolStats)) (ok : Bool)
    (h0 : 0 ≤ st.market_condition_score) (h1 : st.market_condition_score ≤ 100) :
    (0 ≤ (update_market_condition st data ok).market_condition_score ∧
      (update_market_condition st data ok).market_condition_score ≤ 100) ∧
    (ok = true →
      (update_market_condition st data ok).market_condition_score = computeFinalScore data) ∧
    (ok = false →
      (update_market_condition st data ok).market_condition_score = st.market_condition_score) := by
  unfold update_market_condition
  cases ok with
  | false =>
    refine ⟨⟨by simpa using h0, by simpa using h1⟩, by simp, by simp⟩
  | true =>
    have hs := update_trading_status_score
      { st with market_condition_score := computeFinalScore data }
    have hr := computeFinalScore_in_range data
    refine ⟨⟨?_, ?_⟩, ?_, ?_⟩
    · simpa [hs] using hr.1
    · simpa [hs] using hr.2
    · intro _; simpa using hs
    · intro h; cases h

/-- Witness for C1 at a concrete state and data set. -/
theorem market_condition_score_in_range_witness :
    0 ≤ (⟨0, false, 60, 75⟩ : EngineState).market_condition_score ∧
    (0 ≤ (update_market_condition ⟨0, false, 60, 75⟩
        [some ⟨30, 10, 1, true⟩, none] true).market_condition_score ∧
      (update_market_condition ⟨0, false, 60, 75⟩
        [some ⟨30, 10, 1, true⟩, none] true).market_condition_score ≤ 100) :=
  ⟨by decide,
   (market_condition_score_in_range ⟨0, false, 60, 75⟩
      [some ⟨30, 10, 1, true⟩, none] true (by decide) (by decide)).1⟩

/-- C2. Trading-activity hysteresis of `_update_trading_status`: while
inactive the flag flips to active exactly when the score is at least the
auto-resume threshold; while active it flips to inactive exactly when the
score is below the minimum threshold; a score inside the band between the
two thresholds never changes the flag. -/
theorem trading_status_hysteresis (st : EngineState) :
    (st.is_trading_active = false →
      ((update_trading_status st).is_trading_active = true ↔
        st.auto_resume_threshold ≤ st.market_condition_score)) ∧
    (st.is_trading_active = true →
      ((update_trading_status st).is_trading_active = false ↔
        st.market_condition_score < st.min_market_condition_score)) ∧
    (st.min_market_condition_score ≤ st.market_condition_score →
      st.market_condition_score < st.auto_resume_threshold →
      (update_trading_status st).is_trading_active = st.is_trading_active) := by
  unfold update_trading_status
  refine ⟨?_, ?_, ?_⟩
  · intro hin
    constructor
    · intro hres
      by_contra hlt
      simp [hin, hlt] at hres
    · intro hge
      simp [hin, hge]
  · intro hact
    constructor
    · intro hres
      by_contra hge
      simp [hact, hge] at hres
    · intro hlt
      simp [hact, hlt]
  · intro hmin hres
    rcases h : st.is_trading_active with _ | _
    · simp [h, not_le.mpr hres]
    · simp [h, not_lt.mpr hmin]

/-- Witness for C2: a resume at score 80 with threshold 75, a suspension at
score 50 with minimum 60, and an in-band no-change at score 65. -/
theorem trading_status_hysteresis_witness :
    (update_trading_status ⟨80, false, 60, 75⟩).is_trading_active = true ∧
    (update_trading_status ⟨50, true, 60, 75⟩).is_trading_active = false ∧
    (update_trading_status ⟨65, true, 60, 75⟩).is_trading_active = true :=
  ⟨((trading_status_hysteresis ⟨80, false, 60, 75⟩).1 rfl).mpr (by decide),
   ((trading_status_hysteresis ⟨50, true, 60, 75⟩).2.1 rfl).mpr (by decide),
   ((trading_status_hysteresis ⟨65, true, 60, 75⟩).2.2 (by decide) (by decide)).trans rfl⟩

/-! ## Grid strategy: ladder construction and rebalancing -/

/-- Grid strategy state touched by ladder construction and rebalancing:
bounds, level count, the price ladder, and the last rebalance clock.
Order bookkeeping (`grid_orders`) flows through the engine's execution
port and does not influence the bounds or the ladder, so it stays outside
the pure state. -/
structure GridState where
  upper_price : ℚ
  lower_price : ℚ
  grid_levels : ℕ
  grid_prices : List ℚ
  last_rebalance_time : ℚ
deriving DecidableEq

/-- Embedding of `GridTradingStrategy._initialize_grid`: evenly spaced
ladder of `grid_levels + 1` prices from the lower to the upper bound. -/
def init_grid (st : GridState) : GridState :=
  let price_range := st.upper_price - st.lower_price
  let grid_step := price_range / (st.grid_levels : ℚ)
  { st with
    grid_prices := (List.range (st.grid_levels + 1)).map
      (fun i => st.lower_price + (i : ℚ) * grid_step) }

/-- Embedding of `GridTradingStrategy._rebalance_grid`: recenter the bounds
on the current price, clamping the new lower bound at 0, and regenerate the
ladder. Cancelling and re-placing the per-level orders goes through the
engine's execution port and touches only `grid_orders`, not the bounds. -/
def rebalance_grid (st : GridState) (current_price : ℚ) : GridState :=
  let grid_range := st.upper_price - st.lower_price
  let half_range := grid_range / 2
  let new_lower_price := max (current_price - half_range) 0
  let new_upper_price := current_price + half_range
  init_grid { st with lower_price := new_lower_price, upper_price := new_upper_price }

/-- Result dictionary of `check_and_rebalance`. -/
inductive RebalanceResult where
  | rebalanced (new_grid : List ℚ)
  | notRebalanced (reason : String)
deriving DecidableEq

/-- Embedding of `GridTradingStrategy.check_and_rebalance`: rebalance only
when the ticker is available, the price sits strictly outside the bounds,
and at least 3600 seconds passed since the last rebalance. -/
def check_and_rebalance (st : GridState) (ticker : Option ℚ) (now : ℚ) :
    GridState × RebalanceResult :=
  match ticker with
  | none => (st, .notRebalanced "Failed to get current price")
  | some current_price =>
    if st.upper_price < current_price ∨ current_price < st.lower_price then
      if now - st.last_rebalance_time < 3600 then
        (st, .notRebalanced "Rebalance cooldown period")
      else
        let st1 := rebalance_grid st current_price
        let st2 := { st1 with last_rebalance_time := now }
        (st2, .rebalanced st2.grid_prices)
    else
      (st, .notRebalanced "Price within grid boundaries")

/-- Counterexample to C3: bounds `[100, 300]` (width 200), price 40 outside
the bounds, cool-down long elapsed. The rebalance clamps the lower bound at
0, giving bounds `[0, 140]`: the width shrinks from 200 to 140 and the
midpoint 70 differs from the current price 40. -/
theorem grid_rebalance_counterexample :
    ((check_and_rebalance ⟨300, 100, 10, [], 0⟩ (some 40) 10000).1.lower_price = 0 ∧
      (check_and_rebalance ⟨300, 100, 10, [], 0⟩ (some 40) 10000).1.upper_price = 140) ∧
    ((check_and_rebalance ⟨300, 100, 10, [], 0⟩ (some 40) 10000).1.lower_price +
        (check_and_rebalance ⟨300, 100, 10, [], 0⟩ (some 40) 10000).1.upper_price) / 2 ≠ 40 ∧
    (check_and_rebalance ⟨300, 100, 10, [], 0⟩ (some 40) 10000).1.upper_price -
        (check_and_rebalance ⟨300, 100, 10, [], 0⟩ (some 40) 10000).1.lower_price ≠ 300 - 100 := by
  norm_num [check_and_rebalance, rebalance_grid, init_grid, max_def]

/-- C3 (amended). Given a price strictly outside the bounds, an elapsed
cool-down, and a price at least half the old range (so the clamp of the new
lower bound at 0 is inactive), `check_and_rebalance` rebalances, and the new
bounds are centered on the current price with the old total range. -/
theorem grid_rebalance_centered (st : GridState) (price now : ℚ)
    (hout : st.upper_price < price ∨ price < st.lower_price)
    (hcool : 3600 ≤ now - st.last_rebalance_time)
    (hclamp : (st.upper_price - st.lower_price) / 2 ≤ price) :
    ((check_and_rebalance st (some price) now).1.lower_price +
        (check_and_rebalance st (some price) now).1.upper_price) / 2 = price ∧
    (check_and_rebalance st (some price) now).1.upper_price -
        (check_and_rebalance st (some price) now).1.lower_price =
      st.upper_price - st.lower_price ∧
    (check_and_rebalance st (some price) now).2 =
      .rebalanced (check_and_rebalance st (some price) now).1.grid_prices := by
  have hnc : ¬ now - st.last_rebalance_time < 3600 := not_lt.mpr hcool
  have hmax : max (price - (st.upper_price - st.lower_price) / 2) 0 =
      price - (st.upper_price - st.lower_price) / 2 :=
    max_eq_left (by linarith)
  simp only [check_and_rebalance, rebalance_grid, init_grid, if_pos hout, if_neg hnc, hmax]
  refine ⟨by ring, by ring, trivial⟩

/-- Witness for C3 (amended): bounds `[100, 300]`, price 400, cool-down
elapsed. -/
theorem grid_rebalance_centered_witness :
    ((300 : ℚ) < 400 ∨ (400 : ℚ) < 100) ∧
    (((check_and_rebalance ⟨300, 100, 10, [], 0⟩ (some 400) 10000).1.lower_price +
        (check_and_rebalance ⟨300, 100, 10, [], 0⟩ (some 400) 10000).1.upper_price) / 2 = 400 ∧
      (check_and_rebalance ⟨300, 100, 10, [], 0⟩ (some 400) 10000).1.upper_price -
        (check_and_rebalance ⟨300, 100, 10, [], 0⟩ (some 400) 10000).1.lower_price = 300 - 100 ∧
      (check_and_rebalance ⟨300, 100, 10, [], 0⟩ (some 400) 10000).2 =
        .rebalanced (check_and_rebalance ⟨300, 100, 10, [], 0⟩ (some 400) 10000).1.grid_prices) :=
  ⟨by norm_num,
   grid_rebalance_centered ⟨300, 100, 10, [], 0⟩ 400 10000
     (by norm_num) (by norm_num) (by norm_num)⟩

/-! ## Arbitrage strategy -/

/-- Signal dictionary of `ArbitrageStrategy.analyze_market`. The formatted
spread percentage inside the below-threshold reason string is elided. -/
inductive ArbSignal where
  | arb (buy_exchange sell_exchange : String) (buy_price sell_price spread_pct : ℚ)
  | noneSig (reason : String)
  | errSig (reason : String)
deriving DecidableEq

/-- Embedding of `ArbitrageStrategy.analyze_market`. `prices` is the pair
fetched by `get_prices` from the two venues; `none` models an exception
while fetching (the `except` path returning an error signal). -/
def arb_analyze_market (exchange_a exchange_b : String) (threshold_pct : ℚ)
    (prices : Option (ℚ × ℚ)) : ArbSignal :=
  match prices with
  | none => .errSig "exception during arbitrage analysis"
  | some (price_a, price_b) =>
    let spread := |price_a - price_b|
    let spread_pct := spread / min price_a price_b * 100
    if threshold_pct ≤ spread_pct then
      if price_a < price_b then
        .arb exchange_a exchange_b price_a price_b spread_pct
      else
        .arb exchange_b exchange_a price_b price_a spread_pct
    else
      .noneSig "Spread below threshold"

/-- Action dictionary of `ArbitrageStrategy.execute_signal`. -/
inductive ArbAction where
  | arbitrage (details : ArbSignal)
  | noneAct (reason : String)
deriving DecidableEq

/-- Recognizer for the no-action case, used to state what a result is not. -/
def ArbAction.isNoneAct : ArbAction → Bool
  | .noneAct _ => true
  | _ => false

/-- Embedding of `ArbitrageStrategy.execute_signal`: act on an arbitrage
signal, otherwise report no action with the signal's reason. -/
def arb_execute_signal (signal : ArbSignal) : ArbAction :=
  match signal with
  | .arb _ _ _ _ _ => .arbitrage signal
  | .noneSig reason => .noneAct reason
  | .errSig reason => .noneAct reason

set_option linter.unusedVariables false in
/-- Embedding of `ArbitrageStrategy.run_iteration`. The engine's
trading-active flag is passed in as the context the strategy could read;
the source method never consults it, so the definition ignores it. -/
def arb_run_iteration (is_trading_active : Bool) (exchange_a exchange_b : String)
    (threshold_pct : ℚ) (prices : Option (ℚ × ℚ)) : ArbAction :=
  arb_execute_signal (arb_analyze_market exchange_a exchange_b threshold_pct prices)

/-- Counterexample to C4: with `price_a = 100`, `price_b = 102` and threshold
0.5 percent, the signal's spread percentage is `2 / min 100 102 * 100 = 2`,
not approximately 1.96 (the value obtained by dividing by the higher price);
the gap to 1.96 exceeds one hundredth. -/
theorem arbitrage_spread_counterexample :
    arb_analyze_market "a" "b" (1 / 2) (some (100, 102)) =
      ArbSignal.arb "a" "b" 100 102 2 ∧
    ¬ |(2 : ℚ) - 49 / 25| ≤ 1 / 100 := by
  constructor
  · norm_num [arb_analyze_market, abs, min_def]
  · rw [abs_le]
    norm_num

/-- C4 (amended). For `price_a = 100`, `price_b = 102`, threshold 0.5
percent, `analyze_market` signals an arbitrage buying on exchange a and
selling on exchange b with a spread of exactly 2 percent (the spread is
divided by the lower of the two prices). -/
theorem arbitrage_signal_scenario :
    arb_analyze_market "a" "b" (1 / 2) (some (100, 102)) =
      ArbSignal.arb "a" "b" 100 102 2 := by
  norm_num [arb_analyze_market, abs, min_def]

/-! ## Dynamic stop-loss module -/

/-- Position side; the module's `side` argument is the string `'long'` or
`'short'`. -/
inductive Side where
  | long
  | short
deriving DecidableEq

/-- Module configuration read at construction of `DynamicStopLossModule`.
`atr_period` only sizes the OHLCV fetch inside `_calculate_atr` and is
absorbed into the `atr` input of the functions below. -/
structure StopCfg where
  initial_stop_loss_pct : ℚ
  trailing_stop_pct : Option ℚ
  atr_multiplier : ℚ
  time_based_adjustment : Bool
  volatility_based_adjustment : Bool
deriving DecidableEq

/-- Python truthiness of an optional float: `None` and `0.0` are falsy. -/
def truthyOpt (o : Option ℚ) : Bool :=
  match o with
  | none => false
  | some q => q != 0

/-- Value of an optional float where the source has already checked
truthiness. -/
def optVal (o : Option ℚ) : ℚ :=
  o.getD 0

/-- Percentage-based candidate stop of `calculate_initial_stop_loss`
(`base_stop_loss` in the source). -/
def base_stop_loss (cfg : StopCfg) (entry_price : ℚ) (side : Side) : ℚ :=
  if side = .long then entry_price * (1 - cfg.initial_stop_loss_pct / 100)
  else entry_price * (1 + cfg.initial_stop_loss_pct / 100)

/-- ATR-based candidate stop of `calculate_initial_stop_loss`
(`atr_stop_loss` in the source). -/
def atr_stop_loss (cfg : StopCfg) (atr entry_price : ℚ) (side : Side) : ℚ :=
  if side = .long then entry_price - atr * cfg.atr_multiplier
  else entry_price + atr * cfg.atr_multiplier

/-- Embedding of `DynamicStopLossModule.calculate_initial_stop_loss`.
`atr` is the value `_calculate_atr` derived from the OHLCV frame (0 when
the frame was empty or an exception occurred). When volatility adjustment
is on and ATR is positive, the source keeps the wider of the two candidate
stops: `min` for a long, `max` for a short. -/
def calculate_initial_stop_loss (cfg : StopCfg) (atr entry_price : ℚ) (side : Side) : ℚ :=
  if cfg.volatility_based_adjustment = true ∧ 0 < atr then
    if side = .long then
      min (base_stop_loss cfg entry_price side) (atr_stop_loss cfg atr entry_price side)
    else
      max (base_stop_loss cfg entry_price side) (atr_stop_loss cfg atr entry_price side)
  else
    base_stop_loss cfg entry_price side

/-- Modelled from the spec's words, for comparison only: the tighter
(nearer-to-entry) of the percentage-based and ATR-based candidate stops —
the higher of the two for a long, the lower for a short. -/
def tighter_initial_stop_spec (cfg : StopCfg) (atr entry_price : ℚ) (side : Side) : ℚ :=
  if cfg.volatility_based_adjustment = true ∧ 0 < atr then
    if side = .long then
      max (base_stop_loss cfg entry_price side) (atr_stop_loss cfg atr entry_price side)
    else
      min (base_stop_loss cfg entry_price side) (atr_stop_loss cfg atr entry_price side)
  else
    base_stop_loss cfg entry_price side

/-- Tracked position record created by `register_position`. The source
initializes a short position's `highest_price` to `float('inf')` and a long
position's `lowest_price` to `0`; every later read and write of
`highest_price` is guarded by `side == 'long'` and of `lowest_price` by the
short side, so the unused sentinel is unobservable and both are stored as 0
here. The `stop_loss_triggered` key is absent until set in the source and
read with a `False` default, so it is a Bool starting at `false`. -/
structure Position where
  entry_price : ℚ
  current_price : ℚ
  amount : ℚ
  side : Side
  entry_time : ℚ
  stop_loss_price : ℚ
  highest_price : ℚ
  lowest_price : ℚ
  stop_loss_updated : Bool
  stop_loss_triggered : Bool
deriving DecidableEq

/-- Embedding of `DynamicStopLossModule.register_position`. -/
def register_position (cfg : StopCfg) (atr entry_price amount : ℚ) (side : Side)
    (now : ℚ) : Position :=
  { entry_price := entry_price
    current_price := entry_price
    amount := amount
    side := side
    entry_time := now
    stop_loss_price := calculate_initial_stop_loss cfg atr entry_price side
    highest_price := if side = .long then entry_price else 0
    lowest_price := if side = .short then entry_price else 0
    stop_loss_updated := false
    stop_loss_triggered := false }

/-- First block of `update_position`: store the current price and refresh
the running highest (long) or lowest (short) excursion. -/
def update_extrema (pos : Position) (current_price : ℚ) : Position :=
  { pos with
    current_price := current_price
    highest_price :=
      if pos.side = .long then max pos.highest_price current_price else pos.highest_price
    lowest_price :=
      if pos.side = .long then pos.lowest_price else min pos.lowest_price current_price }

/-- Second block of `update_position`: trailing adjustment. Requires a
truthy trailing percentage and an already-updated stop; recomputes the
trailing level from the best-seen price and moves the stop only when that
tightens it. -/
def apply_trailing (cfg : StopCfg) (pos : Position) : Position :=
  if truthyOpt cfg.trailing_stop_pct = true ∧ pos.stop_loss_updated = true then
    if pos.side = .long then
      let trailing_stop := pos.highest_price * (1 - optVal cfg.trailing_stop_pct / 100)
      if pos.stop_loss_price < trailing_stop then
        { pos with stop_loss_price := trailing_stop }
      else pos
    else
      let trailing_stop := pos.lowest_price * (1 + optVal cfg.trailing_stop_pct / 100)
      if trailing_stop < pos.stop_loss_price then
        { pos with stop_loss_price := trailing_stop }
      else pos
  else pos

/-- Third block of `update_position`: time-based breakeven migration.
Requires time adjustment on, a not yet updated stop, a 24-hour dwell and a
1 percent favorable excursion; moves the stop to entry and sets the flag. -/
def apply_breakeven (cfg : StopCfg) (pos : Position) (now : ℚ) : Position :=
  if cfg.time_based_adjustment = true ∧ pos.stop_loss_updated = false then
    if 24 ≤ (now - pos.entry_time) / 3600 then
      if pos.side = .long ∧ pos.entry_price * (101 / 100) < pos.highest_price then
        { pos with stop_loss_price := pos.entry_price, stop_loss_updated := true }
      else if pos.side = .short ∧ pos.lowest_price < pos.entry_price * (99 / 100) then
        { pos with stop_loss_price := pos.entry_price, stop_loss_updated := true }
      else pos
    else pos
  else pos

/-- Fourth block of `update_position`: trigger check of the current price
against the current stop threshold per side. -/
def apply_trigger (pos : Position) (current_price : ℚ) : Position :=
  if (pos.side = .long ∧ current_price ≤ pos.stop_loss_price) ∨
      (pos.side = .short ∧ pos.stop_loss_price ≤ current_price) then
    { pos with stop_loss_triggered := true }
  else pos

/-- Embedding of `DynamicStopLossModule.update_position` for one tracked
position: the four sequential mutation blocks of the source applied in
order to the same record. -/
def update_position (cfg : StopCfg) (pos : Position) (current_price now : ℚ) : Position :=
  apply_trigger (apply_breakeven cfg (apply_trailing cfg (update_extrema pos current_price)) now)
    current_price

/-- Sequence of `update_position` calls on one tracked position, each step
carrying the observed price and the clock reading of the call. -/
def update_run (cfg : StopCfg) (pos : Position) (steps : List (ℚ × ℚ)) : Position :=
  steps.foldl (fun p s => update_position cfg p s.1 s.2) pos

/-- Counterexample to C5: with a 2 percent stop, ATR multiplier 2, ATR 0.5
and entry 100 on a long, the percentage candidate is 98 and the ATR
candidate is 99; the code keeps `min 98 99 = 98` — the farther-from-entry
(wider) level — while the tighter (nearer-to-entry) level of the claim
would be 99. -/
theorem initial_stop_loss_tighter_counterexample :
    calculate_initial_stop_loss ⟨2, none, 2, true, true⟩ (1 / 2) 100 .long = 98 ∧
    tighter_initial_stop_spec ⟨2, none, 2, true, true⟩ (1 / 2) 100 .long = 99 ∧
    (98 : ℚ) ≠ 99 := by
  refine ⟨?_, ?_, by norm_num⟩ <;>
    norm_num [calculate_initial_stop_loss, tighter_initial_stop_spec,
      base_stop_loss, atr_stop_loss, min_def, max_def]

/-- C5 (amended). `calculate_initial_stop_loss` selects the wider
(farther-from-entry) of the percentage-based and ATR-based candidates when
volatility adjustment is on and ATR is positive — the lower of the two for
a long, the higher for a short — and falls back to the percentage level
alone when ATR data is unavailable; in particular entry 100 with a 2
percent stop and no ATR data yields a long stop of 98. -/
theorem initial_stop_loss_wider_of (cfg : StopCfg) (atr entry_price : ℚ) (side : Side) :
    (cfg.volatility_based_adjustment = true → 0 < atr →
      ((side = .long →
          calculate_initial_stop_loss cfg atr entry_price side ≤
            base_stop_loss cfg entry_price side ∧
          calculate_initial_stop_loss cfg atr entry_price side ≤
            atr_stop_loss cfg atr entry_price side) ∧
        (side = .short →
          base_stop_loss cfg entry_price side ≤
            calculate_initial_stop_loss cfg atr entry_price side ∧
          atr_stop_loss cfg atr entry_price side ≤
            calculate_initial_stop_loss cfg atr entry_price side) ∧
        (calculate_initial_stop_loss cfg atr entry_price side =
            base_stop_loss cfg entry_price side ∨
          calculate_initial_stop_loss cfg atr entry_price side =
            atr_stop_loss cfg atr entry_price side))) ∧
    ((cfg.volatility_based_adjustment = false ∨ atr ≤ 0) →
      calculate_initial_stop_loss cfg atr entry_price side =
        base_stop_loss cfg entry_price side) ∧
    (cfg.initial_stop_loss_pct = 2 → atr ≤ 0 → entry_price = 100 → side = .long →
      calculate_initial_stop_loss cfg atr entry_price side = 98) := by
  have hneg : (cfg.volatility_based_adjustment = false ∨ atr ≤ 0) →
      ¬ (cfg.volatility_based_adjustment = true ∧ 0 < atr) := by
    rintro (h | h) ⟨h1, h2⟩
    · rw [h] at h1; cases h1
    · exact absurd h2 (not_lt.mpr h)
  refine ⟨?_, ?_, ?_⟩
  · intro hv ha
    unfold calculate_initial_stop_loss
    rw [if_pos ⟨hv, ha⟩]
    refine ⟨?_, ?_, ?_⟩
    · intro hs
      rw [if_pos hs]
      exact ⟨min_le_left _ _, min_le_right _ _⟩
    · intro hs
      have hns : ¬ side = Side.long := by rw [hs]; intro h; cases h
      rw [if_neg hns]
      exact ⟨le_max_left _ _, le_max_right _ _⟩
    · by_cases hs : side = Side.long
      · rw [if_pos hs]; exact min_choice _ _
      · rw [if_neg hs]; exact max_choice _ _
  · intro h
    unfold calculate_initial_stop_loss
    rw [if_neg (hneg h)]
  · intro hp ha he hs
    subst he hs
    unfold calculate_initial_stop_loss
    rw [if_neg (hneg (Or.inr ha))]
    unfold base_stop_loss
    rw [if_pos rfl, hp]
    norm_num

/-- Witness for C5 (amended): the wider-of choice at ATR 0.5 and the
percentage fallback at ATR 0. -/
theorem initial_stop_loss_wider_of_witness :
    (0 : ℚ) < 1 / 2 ∧
    calculate_initial_stop_loss ⟨2, none, 2, true, true⟩ (1 / 2) 100 .long ≤
      base_stop_loss ⟨2, none, 2, true, true⟩ 100 .long ∧
    calculate_initial_stop_loss ⟨2, none, 2, true, true⟩ 0 100 .long = 98 :=
  ⟨by norm_num,
   (((initial_stop_loss_wider_of ⟨2, none, 2, true, true⟩ (1 / 2) 100 .long).1
      rfl (by norm_num)).1 rfl).1,
   (initial_stop_loss_wider_of ⟨2, none, 2, true, true⟩ 0 100 .long).2.2
     rfl le_rfl rfl rfl⟩

/-- Trailing adjustment only ever touches the stop price. -/
theorem apply_trailing_fields (cfg : StopCfg) (pos : Position) :
    (apply_trailing cfg pos).side = pos.side ∧
    (apply_trailing cfg pos).entry_price = pos.entry_price ∧
    (apply_trailing cfg pos).entry_time = pos.entry_time ∧
    (apply_trailing cfg pos).stop_loss_updated = pos.stop_loss_updated ∧
    (apply_trailing cfg pos).highest_price = pos.highest_price ∧
    (apply_trailing cfg pos).lowest_price = pos.lowest_price := by
  simp only [apply_trailing]
  split_ifs <;> exact ⟨rfl, rfl, rfl, rfl, rfl, rfl⟩

/-- Breakeven migration is the identity on a position whose stop was
already updated. -/
theorem apply_breakeven_of_updated (cfg : StopCfg) (pos : Position) (now : ℚ)
    (h : pos.stop_loss_updated = true) :
    apply_breakeven cfg pos now = pos := by
  unfold apply_breakeven
  rw [if_neg]
  rintro ⟨-, h2⟩
  rw [h] at h2
  cases h2

/-- Breakeven migration only ever touches the stop price and the flag. -/
theorem apply_breakeven_fields (cfg : StopCfg) (pos : Position) (now : ℚ) :
    (apply_breakeven cfg pos now).side = pos.side ∧
    (apply_breakeven cfg pos now).entry_price = pos.entry_price ∧
    (apply_breakeven cfg pos now).entry_time = pos.entry_time ∧
    (apply_breakeven cfg pos now).highest_price = pos.highest_price ∧
    (apply_breakeven cfg pos now).lowest_price = pos.lowest_price := by
  unfold apply_breakeven
  split_ifs <;> exact ⟨rfl, rfl, rfl, rfl, rfl⟩

/-- Trigger check only ever touches the triggered flag. -/
theorem apply_trigger_fields (pos : Position) (c : ℚ) :
    (apply_trigger pos c).side = pos.side ∧
    (apply_trigger pos c).entry_price = pos.entry_price ∧
    (apply_trigger pos c).entry_time = pos.entry_time ∧
    (apply_trigger pos c).stop_loss_updated = pos.stop_loss_updated ∧
    (apply_trigger pos c).stop_loss_price = pos.stop_loss_price ∧
    (apply_trigger pos c).highest_price = pos.highest_price ∧
    (apply_trigger pos c).lowest_price = pos.lowest_price := by
  unfold apply_trigger
  split_ifs <;> exact ⟨rfl, rfl, rfl, rfl, rfl, rfl, rfl⟩

/-- Update of one position preserves its side. -/
theorem update_position_side (cfg : StopCfg) (pos : Position) (c t : ℚ) :
    (update_position cfg pos c t).side = pos.side := by
  unfold update_position
  rw [(apply_trigger_fields _ _).1, (apply_breakeven_fields _ _ _).1,
    (apply_trailing_fields _ _).1]
  rfl

/-- Update of one position preserves its entry price. -/
theorem update_position_entry_price (cfg : StopCfg) (pos : Position) (c t : ℚ) :
    (update_position cfg pos c t).entry_price = pos.entry_price := by
  unfold update_position
  rw [(apply_trigger_fields _ _).2.1, (apply_breakeven_fields _ _ _).2.1,
    (apply_trailing_fields _ _).2.1]
  rfl

/-- Once the `stop_loss_updated` flag is set it stays set: only the
breakeven branch writes it, and only from `false` to `true`. -/
theorem update_position_flag_mono (cfg : StopCfg) (pos : Position) (c t : ℚ)
    (h : pos.stop_loss_updated = true) :
    (update_position cfg pos c t).stop_loss_updated = true := by
  unfold update_position
  have hext : (update_extrema pos c).stop_loss_updated = true := h
  have htr : (apply_trailing cfg (update_extrema pos c)).stop_loss_updated = true :=
    (apply_trailing_fields cfg (update_extrema pos c)).2.2.2.1.trans hext
  rw [(apply_trigger_fields _ _).2.2.2.1, apply_breakeven_of_updated _ _ _ htr]
  exact htr

/-- Trailing adjustment never lowers the stop of a long position: it moves
the stop only to a strictly higher trailing level. -/
theorem apply_trailing_stop_mono_long (cfg : StopCfg) (pos : Position)
    (hside : pos.side = .long) :
    pos.stop_loss_price ≤ (apply_trailing cfg pos).stop_loss_price := by
  simp only [apply_trailing]
  split_ifs
  all_goals try simp_all
  all_goals linarith

/-- Per-step stop monotonicity of `update_position` on a long position with
an already-updated stop: the trailing branch can only raise the stop, the
breakeven branch is disabled by the flag, and the trigger check never
touches the stop. -/
theorem update_position_stop_mono_long (cfg : StopCfg) (pos : Position) (c t : ℚ)
    (hside : pos.side = .long) (hupd : pos.stop_loss_updated = true) :
    pos.stop_loss_price ≤ (update_position cfg pos c t).stop_loss_price := by
  unfold update_position
  have h1 : (update_extrema pos c).side = Side.long := hside
  have h2 : (update_extrema pos c).stop_loss_updated = true := hupd
  have h3 : (apply_trailing cfg (update_extrema pos c)).stop_loss_updated = true :=
    ((apply_trailing_fields cfg (update_extrema pos c)).2.2.2.1).trans h2
  rw [(apply_trigger_fields _ _).2.2.2.2.1, apply_breakeven_of_updated _ _ _ h3]
  exact apply_trailing_stop_mono_long cfg (update_extrema pos c) h1

set_option linter.unusedVariables false in
/-- C9. For a long position whose stop was already updated, with a
configured trailing percentage, the stop price is monotonically
non-decreasing across any sequence of `update_position` calls: no branch
ever lowers it. -/
theorem trailing_stop_monotone (cfg : StopCfg) (pos : Position) (steps : List (ℚ × ℚ))
    (hcfg : truthyOpt cfg.trailing_stop_pct = true)
    (hside : pos.side = .long) (hupd : pos.stop_loss_updated = true) :
    pos.stop_loss_price ≤ (update_run cfg pos steps).stop_loss_price := by
  induction steps generalizing pos with
  | nil => exact le_refl _
  | cons s rest ih =>
    have hstep := update_position_stop_mono_long cfg pos s.1 s.2 hside hupd
    have hside2 : (update_position cfg pos s.1 s.2).side = Side.long :=
      (update_position_side cfg pos s.1 s.2).trans hside
    have hupd2 := update_position_flag_mono cfg pos s.1 s.2 hupd
    exact le_trans hstep (ih _ hside2 hupd2)

/-- Witness for C9: a long position with stop 98, trailing 1 percent, two
updates at prices 110 and 105. -/
theorem trailing_stop_monotone_witness :
    truthyOpt (some 1) = true ∧
    (⟨100, 100, 1, .long, 0, 98, 100, 0, true, false⟩ : Position).stop_loss_price ≤
      (update_run ⟨2, some 1, 2, true, true⟩ ⟨100, 100, 1, .long, 0, 98, 100, 0, true, false⟩
        [(110, 1000), (105, 2000)]).stop_loss_price := by
  have ht : truthyOpt (some 1) = true := by
    simp [truthyOpt]
  exact ⟨ht,
    trailing_stop_monotone ⟨2, some 1, 2, true, true⟩
      ⟨100, 100, 1, .long, 0, 98, 100, 0, true, false⟩ [(110, 1000), (105, 2000)] ht rfl rfl⟩

/-- Number of steps of an update sequence in which the breakeven migration
fires, i.e. the `stop_loss_updated` flag flips from false to true. -/
def breakeven_count (cfg : StopCfg) (pos : Position) (steps : List (ℚ × ℚ)) : ℕ :=
  match steps with
  | [] => 0
  | s :: rest =>
    (if pos.stop_loss_updated = false ∧
        (update_position cfg pos s.1 s.2).stop_loss_updated = true then 1 else 0) +
      breakeven_count cfg (update_position cfg pos s.1 s.2) rest

/-- After the flag is set no later step can flip it again. -/
theorem breakeven_count_of_updated (cfg : StopCfg) (steps : List (ℚ × ℚ)) :
    ∀ (pos : Position), pos.stop_loss_updated = true → breakeven_count cfg pos steps = 0 := by
  induction steps with
  | nil => intro pos _; rfl
  | cons s rest ih =>
    intro pos h
    simp only [breakeven_count]
    rw [if_neg, ih _ (update_position_flag_mono cfg pos s.1 s.2 h)]
    rintro ⟨h1, -⟩
    rw [h] at h1
    cases h1

/-- Over any update sequence the breakeven migration fires at most once. -/
theorem breakeven_count_le_one (cfg : StopCfg) (steps : List (ℚ × ℚ)) :
    ∀ (pos : Position), breakeven_count cfg pos steps ≤ 1 := by
  induction steps with
  | nil => intro pos; exact Nat.zero_le 1
  | cons s rest ih =>
    intro pos
    simp only [breakeven_count]
    by_cases h : pos.stop_loss_updated = false ∧
        (update_position cfg pos s.1 s.2).stop_loss_updated = true
    · rw [if_pos h, breakeven_count_of_updated cfg rest _ h.2]
    · rw [if_neg h]
      simpa using ih _

/-- If the breakeven block flips the flag, the dwell and excursion guards
held, and the stop was moved to the entry price. -/
theorem apply_breakeven_flip (cfg : StopCfg) (q : Position) (t : ℚ)
    (h0 : q.stop_loss_updated = false)
    (h1 : (apply_breakeven cfg q t).stop_loss_updated = true) :
    24 ≤ (t - q.entry_time) / 3600 ∧
    (apply_breakeven cfg q t).stop_loss_price = q.entry_price ∧
    (q.side = .long → q.entry_price * (101 / 100) < q.highest_price) ∧
    (q.side = .short → q.lowest_price < q.entry_price * (99 / 100)) := by
  unfold apply_breakeven at h1 ⊢
  split_ifs at h1 ⊢ with hA hB hC hD
  · refine ⟨hB, rfl, fun _ => hC.2, fun hs => ?_⟩
    cases hC.1.symm.trans hs
  · refine ⟨hB, rfl, fun hs => ?_, fun _ => hD.2⟩
    cases hD.1.symm.trans hs
  · rw [h0] at h1; cases h1
  · rw [h0] at h1; cases h1
  · rw [h0] at h1; cases h1

/-- Lift of `apply_breakeven_flip` through the whole `update_position`
pipeline: the flag flip of one update implies the 24-hour dwell and the
1 percent favorable excursion (on the refreshed extrema), and the stop was
moved to the entry price. -/
theorem breakeven_flip_guard (cfg : StopCfg) (pos : Position) (c t : ℚ)
    (h0 : pos.stop_loss_updated = false)
    (h1 : (update_position cfg pos c t).stop_loss_updated = true) :
    24 ≤ (t - pos.entry_time) / 3600 ∧
    (update_position cfg pos c t).stop_loss_price = pos.entry_price ∧
    (pos.side = .long →
      pos.entry_price * (101 / 100) < (update_position cfg pos c t).highest_price) ∧
    (pos.side = .short →
      (update_position cfg pos c t).lowest_price < pos.entry_price * (99 / 100)) := by
  have hq := apply_trailing_fields cfg (update_extrema pos c)
  have hq0 : (apply_trailing cfg (update_extrema pos c)).stop_loss_updated = false :=
    hq.2.2.2.1.trans h0
  have h1' : (apply_breakeven cfg (apply_trailing cfg (update_extrema pos c)) t).stop_loss_updated
      = true := by
    have := (apply_trigger_fields
      (apply_breakeven cfg (apply_trailing cfg (update_extrema pos c)) t) c).2.2.2.1
    unfold update_position at h1
    exact this.symm.trans h1
  have key := apply_breakeven_flip cfg (apply_trailing cfg (update_extrema pos c)) t hq0 h1'
  have hbe := apply_breakeven_fields cfg (apply_trailing cfg (update_extrema pos c)) t
  have htr := apply_trigger_fields
    (apply_breakeven cfg (apply_trailing cfg (update_extrema pos c)) t) c
  have hside : (apply_trailing cfg (update_extrema pos c)).side = pos.side := hq.1
  have hentry : (apply_trailing cfg (update_extrema pos c)).entry_price = pos.entry_price :=
    hq.2.1
  have htime : (apply_trailing cfg (update_extrema pos c)).entry_time = pos.entry_time :=
    hq.2.2.1
  refine ⟨?_, ?_, ?_, ?_⟩
  · rw [htime] at key
    exact key.1
  · show (update_position cfg pos c t).stop_loss_price = pos.entry_price
    unfold update_position
    rw [htr.2.2.2.2.1]
    exact key.2.1.trans hentry
  · intro hs
    have hs' : (apply_trailing cfg (update_extrema pos c)).side = Side.long :=
      hside.trans hs
    have hx := key.2.2.1 hs'
    rw [hentry, hq.2.2.2.2.1] at hx
    show pos.entry_price * (101 / 100) < (update_position cfg pos c t).highest_price
    unfold update_position
    rw [htr.2.2.2.2.2.1, hbe.2.2.2.1, hq.2.2.2.2.1]
    exact hx
  · intro hs
    have hs' : (apply_trailing cfg (update_extrema pos c)).side = Side.short :=
      hside.trans hs
    have hx := key.2.2.2 hs'
    rw [hentry, hq.2.2.2.2.2] at hx
    show (update_position cfg pos c t).lowest_price < pos.entry_price * (99 / 100)
    unfold update_position
    rw [htr.2.2.2.2.2.2, hbe.2.2.2.2, hq.2.2.2.2.2]
    exact hx

/-- C8. Breakeven migration (stop moved to entry and `stop_loss_updated`
set) fires at most once over any sequence of `update_position` calls, and
only when at least 24 hours elapsed since `entry_time` and the favorable
excursion (on the refreshed extrema) exceeds 1 percent of the entry price. -/
theorem breakeven_migration (cfg : StopCfg) (pos : Position) :
    (∀ steps, breakeven_count cfg pos steps ≤ 1) ∧
    (∀ current_price now, pos.stop_loss_updated = false →
      (update_position cfg pos current_price now).stop_loss_updated = true →
      24 ≤ (now - pos.entry_time) / 3600 ∧
      (update_position cfg pos current_price now).stop_loss_price = pos.entry_price ∧
      (pos.side = .long →
        pos.entry_price * (101 / 100) <
          (update_position cfg pos current_price now).highest_price) ∧
      (pos.side = .short →
        (update_position cfg pos current_price now).lowest_price <
          pos.entry_price * (99 / 100))) :=
  ⟨fun steps => breakeven_count_le_one cfg steps pos,
   fun c t h0 h1 => breakeven_flip_guard cfg pos c t h0 h1⟩

/-- Witness for C8: a long position entered at 100 with peak 102, updated
at price 102 after 25 hours — the migration fires, and the guards hold. -/
theorem breakeven_migration_witness :
    (⟨100, 100, 1, .long, 0, 98, 102, 0, false, false⟩ : Position).stop_loss_updated = false ∧
    (update_position ⟨2, some 1, 2, true, true⟩
      ⟨100, 100, 1, .long, 0, 98, 102, 0, false, false⟩ 102 90000).stop_loss_updated = true ∧
    (24 ≤ ((90000 : ℚ) -
        (⟨100, 100, 1, .long, 0, 98, 102, 0, false, false⟩ : Position).entry_time) / 3600 ∧
      (update_position ⟨2, some 1, 2, true, true⟩
        ⟨100, 100, 1, .long, 0, 98, 102, 0, false, false⟩ 102 90000).stop_loss_price =
        (⟨100, 100, 1, .long, 0, 98, 102, 0, false, false⟩ : Position).entry_price) := by
  have hupd : (update_position ⟨2, some 1, 2, true, true⟩
      ⟨100, 100, 1, .long, 0, 98, 102, 0, false, false⟩ 102 90000).stop_loss_updated = true := by
    norm_num [update_position, update_extrema, apply_trailing, apply_breakeven, apply_trigger,
      truthyOpt, optVal, max_def, min_def]
    split <;> rfl
  have key := (breakeven_migration ⟨2, some 1, 2, true, true⟩
    ⟨100, 100, 1, .long, 0, 98, 102, 0, false, false⟩).2 102 90000 rfl hupd
  exact ⟨rfl, hupd, key.1, key.2.1⟩

/-- Trailing adjustment is the identity on a position whose stop was never
updated. -/
theorem apply_trailing_of_not_updated (cfg : StopCfg) (q : Position)
    (h : q.stop_loss_updated = false) :
    apply_trailing cfg q = q := by
  unfold apply_trailing
  rw [if_neg]
  rintro ⟨-, h2⟩
  rw [h] at h2
  cases h2

/-- Breakeven migration is disabled wholesale when the module was built
with `time_based_adjustment = False`. -/
theorem apply_breakeven_no_time (cfg : StopCfg) (q : Position) (t : ℚ)
    (hc : cfg.time_based_adjustment = false) :
    apply_breakeven cfg q t = q := by
  unfold apply_breakeven
  rw [if_neg]
  rintro ⟨h1, -⟩
  rw [hc] at h1
  cases h1

/-- One update with time adjustment off and a never-updated flag keeps both
the flag and the stop price unchanged. -/
theorem update_position_no_time_adjust (cfg : StopCfg) (pos : Position) (c t : ℚ)
    (hc : cfg.time_based_adjustment = false) (h : pos.stop_loss_updated = false) :
    (update_position cfg pos c t).stop_loss_updated = false ∧
    (update_position cfg pos c t).stop_loss_price = pos.stop_loss_price := by
  have hext : (update_extrema pos c).stop_loss_updated = false := h
  unfold update_position
  rw [apply_trailing_of_not_updated _ _ hext, apply_breakeven_no_time _ _ _ hc]
  exact ⟨(apply_trigger_fields _ _).2.2.2.1.trans hext,
    (apply_trigger_fields _ _).2.2.2.2.1.trans rfl⟩

/-- C10. With `time_based_adjustment = False`, a registered position's
`stop_loss_updated` flag stays false through every `update_position` call
and its stop price stays at the initial stop computed at registration, so
the trailing adjustment can never activate regardless of the configured
trailing percentage. -/
theorem stop_frozen_without_time_adjustment (cfg : StopCfg)
    (atr entry_price amount : ℚ) (side : Side) (t0 : ℚ) (steps : List (ℚ × ℚ))
    (hc : cfg.time_based_adjustment = false) :
    (update_run cfg (register_position cfg atr entry_price amount side t0)
      steps).stop_loss_updated = false ∧
    (update_run cfg (register_position cfg atr entry_price amount side t0)
      steps).stop_loss_price = calculate_initial_stop_loss cfg atr entry_price side := by
  have key : ∀ (l : List (ℚ × ℚ)) (pos : Position), pos.stop_loss_updated = false →
      (update_run cfg pos l).stop_loss_updated = false ∧
      (update_run cfg pos l).stop_loss_price = pos.stop_loss_price := by
    intro l
    induction l with
    | nil => intro pos h; exact ⟨h, rfl⟩
    | cons s rest ih =>
      intro pos h
      have hstep := update_position_no_time_adjust cfg pos s.1 s.2 hc h
      have hrest := ih _ hstep.1
      exact ⟨hrest.1, hrest.2.trans hstep.2⟩
  have h0 := key steps (register_position cfg atr entry_price amount side t0) rfl
  exact ⟨h0.1, h0.2.trans rfl⟩

/-- Witness for C10: time adjustment off, trailing 1 percent configured,
one update at a much higher price after more than a day. -/
theorem stop_frozen_without_time_adjustment_witness :
    (⟨2, some 1, 2, false, false⟩ : StopCfg).time_based_adjustment = false ∧
    ((update_run ⟨2, some 1, 2, false, false⟩
        (register_position ⟨2, some 1, 2, false, false⟩ 0 100 1 .long 0)
        [(200, 90000)]).stop_loss_updated = false ∧
      (update_run ⟨2, some 1, 2, false, false⟩
        (register_position ⟨2, some 1, 2, false, false⟩ 0 100 1 .long 0)
        [(200, 90000)]).stop_loss_price =
        calculate_initial_stop_loss ⟨2, some 1, 2, false, false⟩ 0 100 .long) :=
  ⟨rfl, stop_frozen_without_time_adjustment ⟨2, some 1, 2, false, false⟩
    0 100 1 .long 0 [(200, 90000)] rfl⟩

/-! ## DCA strategy -/

/-- Configuration of `DCAStrategy` read at construction. -/
structure DCACfg where
  investment_amount : ℚ
  interval_hours : ℚ
  max_positions : ℕ
  take_profit_pct : Option ℚ
deriving DecidableEq

/-- Position record appended by `make_investment`. -/
structure DCAPosition where
  entry_price : ℚ
  amount : ℚ
  entry_time : ℚ
  order_id : String
deriving DecidableEq

/-- Mutable strategy state of `DCAStrategy`. -/
structure DCAState where
  positions : List DCAPosition
  last_investment_time : ℚ
deriving DecidableEq

/-- Result dictionaries of the DCA entry points. `noPrice` is the
`make_investment` failure dictionary that carries no action key; `idle` is
the final fall-through of `run_iteration` with the hours until the next
investment and the position count. Formatted reason strings are elided to
their fixed prefixes. -/
inductive DCAResult where
  | noPrice
  | bought (amount price : ℚ) (positions : ℕ)
  | errorAct (reason : String)
  | noneAct (reason : String)
  | sold (amount price : ℚ) (positions_sold remaining : ℕ)
  | idle (next_investment_in_hours : ℚ) (positions : ℕ)
deriving DecidableEq

/-- Embedding of `DCAStrategy.should_invest`: at least `interval_hours`
since the last investment and the position cap not yet reached. -/
def should_invest (cfg : DCACfg) (st : DCAState) (now : ℚ) : Bool :=
  if cfg.interval_hours ≤ (now - st.last_investment_time) / 3600 then
    decide (st.positions.length < cfg.max_positions)
  else
    false

/-- Embedding of `DCAStrategy.make_investment`. `ticker` is the fetched
last price (`none` when unavailable); `order_id` is the id of the order
record the engine returned (`none` when the record carried no id, the
failure signal). On success the new position is appended and the
investment clock reset; on failure nothing is touched. -/
def make_investment (cfg : DCACfg) (st : DCAState) (ticker : Option ℚ)
    (order_id : Option String) (now : ℚ) : DCAState × DCAResult :=
  match ticker with
  | none => (st, .noPrice)
  | some current_price =>
    let amount := cfg.investment_amount / current_price
    match order_id with
    | some oid =>
      let st2 : DCAState :=
        { positions := st.positions ++ [⟨current_price, amount, now, oid⟩]
          last_investment_time := now }
      (st2, .bought amount current_price st2.positions.length)
    | none => (st, .errorAct "Failed to execute buy order")

/-- Profit test of one DCA position against the take-profit threshold. -/
def reached_take_profit (tp current_price : ℚ) (p : DCAPosition) : Bool :=
  decide (tp ≤ (current_price - p.entry_price) / p.entry_price * 100)

/-- Embedding of `DCAStrategy.check_take_profit`. The source collects the
indices whose profit reached the threshold, deletes them from
`self.positions` in descending index order — equivalent to keeping exactly
the entries below the threshold, in order — and only then executes the
sell order, branching on the presence of an order id. The deletion
happens before the execution result is known, so the error branch also
returns the already-shrunk position list. -/
def check_take_profit (cfg : DCACfg) (st : DCAState) (ticker : Option ℚ)
    (order_id : Option String) : DCAState × DCAResult :=
  if truthyOpt cfg.take_profit_pct = false ∨ st.positions = [] then
    (st, .noneAct "No take profit set or no positions")
  else
    match ticker with
    | none => (st, .noneAct "Failed to get current price")
    | some current_price =>
      let tp := optVal cfg.take_profit_pct
      let sold := st.positions.filter (reached_take_profit tp current_price)
      let kept := st.positions.filter (fun p => ! reached_take_profit tp current_price p)
      if sold = [] then
        (st, .noneAct "No positions reached take profit level")
      else
        let total_amount := (sold.map DCAPosition.amount).sum
        let st2 : DCAState := { st with positions := kept }
        match order_id with
        | some _ => (st2, .sold total_amount current_price sold.length kept.length)
        | none => (st2, .errorAct "Failed to execute sell order")

/-- Embedding of `DCAStrategy.run_iteration`: inactive gate, then the
investment schedule, then the optional take-profit sweep, then the idle
fall-through. -/
def dca_run_iteration (cfg : DCACfg) (st : DCAState) (is_trading_active : Bool)
    (now : ℚ) (ticker : Option ℚ) (order_id : Option String) : DCAState × DCAResult :=
  if is_trading_active = false then
    (st, .noneAct "Trading is not active")
  else if should_invest cfg st now then
    make_investment cfg st ticker order_id now
  else if truthyOpt cfg.take_profit_pct = true then
    match check_take_profit cfg st ticker order_id with
    | (st2, .noneAct _) =>
      (st2, .idle (cfg.interval_hours - (now - st2.last_investment_time) / 3600)
        st2.positions.length)
    | r => r
  else
    (st, .idle (cfg.interval_hours - (now - st.last_investment_time) / 3600)
      st.positions.length)

/-- C6 (divergence witness). One DCA position entered at 100 with a 1
percent take-profit, current price 102, and a failed sell execution: the
result is the error action, yet the position list has already been emptied
— the position record is lost although the claim (and the spec) require
the state to be left unchanged on execution failure. -/
theorem dca_take_profit_failure_mutates_state :
    (check_take_profit ⟨100, 24, 10, some 1⟩ ⟨[⟨100, 2, 0, "o1"⟩], 0⟩ (some 102) none).2 =
      DCAResult.errorAct "Failed to execute sell order" ∧
    (check_take_profit ⟨100, 24, 10, some 1⟩ ⟨[⟨100, 2, 0, "o1"⟩], 0⟩ (some 102) none).1.positions
      = [] ∧
    (⟨[⟨100, 2, 0, "o1"⟩], 0⟩ : DCAState).positions ≠ [] := by
  have hr : reached_take_profit 1 102 ⟨100, 2, 0, "o1"⟩ = true := by
    unfold reached_take_profit
    norm_num
  refine ⟨?_, ?_, by simp⟩ <;>
    simp [check_take_profit, truthyOpt, optVal, hr, List.filter]

/-! ## Scalping strategy -/

/-- Configuration of `ScalpingStrategy` consumed by the decision logic.
`timeframe`, `rsi_period` and the EMA spans only shape the pandas indicator
computation, which enters `scalp_analyze_market` through its abstracted
indicator inputs. -/
structure ScalpCfg where
  rsi_overbought : ℚ
  rsi_oversold : ℚ
  profit_target_pct : ℚ
  max_trade_duration : ℚ
deriving DecidableEq

/-- Open-position bookkeeping of `ScalpingStrategy`. The source keeps three
parallel attributes (`active_position`, which is only ever the string
`'long'`, `position_entry_time` and `position_entry_price`), always set and
cleared together; they are modeled as one optional record. -/
structure ScalpPos where
  entry_time : ℚ
  entry_price : ℚ
deriving DecidableEq

/-- Mutable strategy state of `ScalpingStrategy`. -/
structure ScalpState where
  active_position : Option ScalpPos
deriving DecidableEq

/-- Indicator values `_calculate_indicators` derives from the fetched
OHLCV frame: the RSI and the two EMAs at the last and second-to-last rows,
and the last close. `none` models an empty frame. -/
structure ScalpIndicators where
  rsi_latest : ℚ
  ema_short_latest : ℚ
  ema_long_latest : ℚ
  ema_short_prev : ℚ
  ema_long_prev : ℚ
  close_latest : ℚ
deriving DecidableEq

/-- Signal dictionary of `ScalpingStrategy.analyze_market`; the price key
is absent in the no-data case. Formatted numeric parts of the reason
strings are elided to fixed texts. -/
inductive ScalpSignal where
  | buySig (reason : String) (price : ℚ)
  | sellSig (reason : String) (price : ℚ)
  | holdSig (reason : String) (price : Option ℚ)
deriving DecidableEq

/-- Action dictionary of `ScalpingStrategy.execute_signal`. -/
inductive ScalpAction where
  | buyAct (amount price : ℚ) (reason : String)
  | sellAct (amount price profit_pct : ℚ) (reason : String)
  | errorAct (reason : String)
  | noneAct (reason : String)
deriving DecidableEq

/-- Embedding of `ScalpingStrategy.analyze_market`: buy and sell signals
from RSI thresholds and EMA crossovers; with an open position the exit
rules (profit target, then the time limit — gated on a truthy entry time —
then technical reversal) take priority; without one, an entry requires
both a buy signal and the engine's trading-active flag. -/
def scalp_analyze_market (cfg : ScalpCfg) (st : ScalpState) (is_trading_active : Bool)
    (data : Option ScalpIndicators) (now : ℚ) : ScalpSignal :=
  match data with
  | none => .holdSig "No data available" none
  | some d =>
    let current_price := d.close_latest
    let buy_signal :=
      decide (d.rsi_latest < cfg.rsi_oversold) ||
        (decide (d.ema_short_prev ≤ d.ema_long_prev) &&
          decide (d.ema_long_latest < d.ema_short_latest))
    let sell_signal :=
      decide (cfg.rsi_overbought < d.rsi_latest) ||
        (decide (d.ema_long_prev ≤ d.ema_short_prev) &&
          decide (d.ema_short_latest < d.ema_long_latest))
    match st.active_position with
    | some pos =>
      if pos.entry_price * (1 + cfg.profit_target_pct / 100) ≤ current_price then
        .sellSig "Profit target reached" current_price
      else if pos.entry_time ≠ 0 ∧ cfg.max_trade_duration ≤ (now - pos.entry_time) / 60 then
        .sellSig "Maximum trade duration reached" current_price
      else if sell_signal = true then
        .sellSig "technical reversal" current_price
      else
        .holdSig "No trading opportunity" (some current_price)
    | none =>
      if buy_signal = true ∧ is_trading_active = true then
        .buySig "technical entry" current_price
      else
        .holdSig "No trading opportunity" (some current_price)

/-- Embedding of `ScalpingStrategy.execute_signal`. `free_balance` is the
engine balance's free quote amount, `max_trade_amount` the engine's cap,
`open_buy_amount` the summed amounts of the engine's recorded buy trades
for the symbol, and `order_ok` whether the engine's order record carried
an id. Failure paths return the error action with the state untouched. -/
def scalp_execute_signal (st : ScalpState) (signal : ScalpSignal)
    (free_balance max_trade_amount open_buy_amount : ℚ) (order_ok : Bool) (now : ℚ) :
    ScalpState × ScalpAction :=
  match signal, st.active_position with
  | .buySig reason price, none =>
    let position_size := min (free_balance * (1 / 100)) max_trade_amount
    let amount := position_size / price
    if order_ok then
      ({ active_position := some ⟨now, price⟩ }, .buyAct amount price reason)
    else
      (st, .errorAct "Failed to execute buy order")
  | .sellSig reason price, some pos =>
    if order_ok then
      let profit_pct := (price - pos.entry_price) / pos.entry_price * 100
      ({ active_position := none }, .sellAct open_buy_amount price profit_pct reason)
    else
      (st, .errorAct "Failed to execute sell order")
  | _, _ => (st, .noneAct "No action taken")

/-- Embedding of `ScalpingStrategy.run_iteration`: no-op with the inactive
reason only when trading is inactive and no position is open, otherwise
`analyze_market` followed by `execute_signal`. -/
def scalp_run_iteration (cfg : ScalpCfg) (st : ScalpState) (is_trading_active : Bool)
    (data : Option ScalpIndicators)
    (now free_balance max_trade_amount open_buy_amount : ℚ) (order_ok : Bool) :
    ScalpState × ScalpAction :=
  if is_trading_active = false ∧ st.active_position = none then
    (st, .noneAct "Trading is not active")
  else
    scalp_execute_signal st (scalp_analyze_market cfg st is_trading_active data now)
      free_balance max_trade_amount open_buy_amount order_ok now

/-- Counterexample to C7: the arbitrage strategy's `run_iteration` with the
engine inactive and prices 100 and 102 is not an inactive no-op — it
returns the arbitrage action. -/
theorem inactive_gating_counterexample :
    arb_run_iteration false "a" "b" (1 / 2) (some (100, 102)) =
      ArbAction.arbitrage (ArbSignal.arb "a" "b" 100 102 2) ∧
    ArbAction.isNoneAct (arb_run_iteration false "a" "b" (1 / 2) (some (100, 102))) = false := by
  have h : arb_run_iteration false "a" "b" (1 / 2) (some (100, 102)) =
      ArbAction.arbitrage (ArbSignal.arb "a" "b" 100 102 2) := by
    norm_num [arb_run_iteration, arb_execute_signal, arb_analyze_market, abs, min_def]
  refine ⟨h, ?_⟩
  rw [h]
  rfl

/-- C7 (amended). Scalping's `run_iteration` is a no-op with the explicit
inactive reason exactly when trading is inactive and no position is open;
otherwise — trading active, or a position open even while inactive — it
runs `analyze_market` then `execute_signal`, so an open position can still
exit while inactive. DCA's `run_iteration` returns the inactive no-op
whenever trading is inactive, even with open positions. Arbitrage's
`run_iteration` is independent of the trading-active flag. -/
theorem run_iteration_gating
    (scfg : ScalpCfg) (sst : ScalpState) (data : Option ScalpIndicators)
    (now free_balance max_trade_amount open_buy_amount : ℚ) (order_ok : Bool)
    (dcfg : DCACfg) (dst : DCAState) (dnow : ℚ) (ticker : Option ℚ) (oid : Option String)
    (b1 b2 : Bool) (ea eb : String) (th : ℚ) (pr : Option (ℚ × ℚ)) :
    (sst.active_position = none →
      scalp_run_iteration scfg sst false data now free_balance max_trade_amount
        open_buy_amount order_ok = (sst, .noneAct "Trading is not active")) ∧
    (∀ pos, sst.active_position = some pos →
      scalp_run_iteration scfg sst false data now free_balance max_trade_amount
        open_buy_amount order_ok =
        scalp_execute_signal sst (scalp_analyze_market scfg sst false data now)
          free_balance max_trade_amount open_buy_amount order_ok now) ∧
    (scalp_run_iteration scfg sst true data now free_balance max_trade_amount
        open_buy_amount order_ok =
      scalp_execute_signal sst (scalp_analyze_market scfg sst true data now)
        free_balance max_trade_amount open_buy_amount order_ok now) ∧
    (dca_run_iteration dcfg dst false dnow ticker oid =
      (dst, .noneAct "Trading is not active")) ∧
    (arb_run_iteration b1 ea eb th pr = arb_run_iteration b2 ea eb th pr) := by
  refine ⟨?_, ?_, ?_, ?_, rfl⟩
  · intro h
    simp [scalp_run_iteration, h]
  · intro pos h
    simp [scalp_run_iteration, h]
  · simp [scalp_run_iteration]
  · simp [dca_run_iteration]

/-- Witness for C7 (amended): inactive engine, no open scalping position. -/
theorem run_iteration_gating_witness :
    (⟨none⟩ : ScalpState).active_position = none ∧
    scalp_run_iteration ⟨70, 30, 1 / 2, 30⟩ ⟨none⟩ false none 0 1000 100 0 false =
      (⟨none⟩, .noneAct "Trading is not active") :=
  ⟨rfl,
   (run_iteration_gating ⟨70, 30, 1 / 2, 30⟩ ⟨none⟩ none 0 1000 100 0 false
      ⟨100, 24, 10, none⟩ ⟨[], 0⟩ 0 none none false false "a" "b" 0 none).1 rfl⟩

end CT
